import Mathlib

/-!
Verification of the k8s schema-import core of `cdk8s-cli`
(`src/import/k8s.ts`), as a shallow embedding in Lean 4.

JavaScript string primitives used by the source (`String.prototype.split`,
`String.prototype.startsWith`) are embedded as executable functions over
`List Char` so that every definition evaluates inside the kernel.

Functions of the repository that are referenced by `src/import/k8s.ts` but
whose files are not part of the sources at hand (`parseApiTypeName` from
`k8s-util.ts`; `getTypeName`, `getConstructTypeName`, `getPropsTypeName`,
`generateConstruct` from `codegen.ts`) are modelled from the specification
text; their doc comments say so explicitly.
-/

deriving instance DecidableEq for Except

/-! ## JavaScript string primitives, embedded -/

/-- `splitCharList c cs` splits the character list `cs` at every occurrence
of `c`, keeping empty pieces — the semantics of JavaScript
`String.prototype.split` with a single-character separator. -/
def splitCharList (c : Char) : List Char → List (List Char)
  | [] => [[]]
  | x :: xs =>
    let r := splitCharList c xs
    if x = c then [] :: r
    else
      match r with
      | [] => [[x]]
      | y :: ys => (x :: y) :: ys

/-- JavaScript `s.split(c)` for a single-character separator `c`. -/
def jsSplit (c : Char) (s : String) : List String :=
  (splitCharList c s.toList).map (fun l => String.mk l)

/-- Boolean prefix test on character lists. -/
def listIsPfxOf : List Char → List Char → Bool
  | [], _ => true
  | _ :: _, [] => false
  | a :: as, b :: bs => a == b && listIsPfxOf as bs

/-- JavaScript `s.startsWith(p)`. -/
def jsStartsWith (p s : String) : Bool := listIsPfxOf p.toList s.toList

/-- Capitalize the first character (the capitalization normalization used
when deriving type names). -/
def pascalCase (s : String) : String :=
  match s.toList with
  | [] => ""
  | c :: rest => String.mk (c.toUpper :: rest)

/-! ## Data model: schema definitions -/

/-- One entry of the `x-kubernetes-group-version-kind` annotation
(`GroupVersionKind` in `src/import/k8s.ts`). -/
structure GroupVersionKind where
  group : String
  version : String
  kind : String
deriving DecidableEq

/-- The part of a JSON-schema definition node that the import core reads:
the optional `x-kubernetes-group-version-kind` annotation (a list of
triples) and the names of the declared `properties` (absent when the node
has no `properties` object at all). -/
structure SchemaDef where
  xKubernetesGroupVersionKind : Option (List GroupVersionKind)
  properties : Option (List String)
deriving DecidableEq

/-- `tryGetObjectName` from `src/import/k8s.ts`: returns the first
group/version/kind triple of the annotation when the annotation is present,
non-empty, and the definition declares a `metadata` property; otherwise
`none` ("not an API object"). -/
def tryGetObjectName (d : SchemaDef) : Option GroupVersionKind :=
  match d.xKubernetesGroupVersionKind with
  | none => none
  | some objectNames =>
    match objectNames with
    | [] => none
    | objectName :: _ =>
      if (d.properties.getD []).contains "metadata" then some objectName
      else none

/-! ## Type identifier parsing (modelled from the spec) -/

/-- A parsed version segment; `raw` is the raw segment text. -/
structure ParsedVersion where
  raw : String
deriving DecidableEq

/-- A parsed composite type identifier (`ApiTypeName` in `k8s-util.ts`). -/
structure ApiTypeName where
  basename : String
  group : String
  version : Option ParsedVersion
  fullname : String
deriving DecidableEq

/-- A recognizable version segment: `v` followed by one or more digits,
optionally followed by a stage (letters) and a stage number (digits), e.g.
`v1`, `v2`, `v1beta1`, `v1alpha2`. -/
def isVersionSegment (s : String) : Bool :=
  match s.toList with
  | 'v' :: rest =>
    let (ds, rest1) := rest.span Char.isDigit
    if ds.isEmpty then false
    else if rest1.isEmpty then true
    else
      let (ls, rest2) := rest1.span Char.isAlpha
      let (ds2, rest3) := rest2.span Char.isDigit
      !ls.isEmpty && !ds2.isEmpty && rest3.isEmpty
  | _ => false

/-- Modelled from the spec: `parseApiTypeName` lives in `k8s-util.ts`,
which is not among the sources at hand. Per spec §4.1 a key encodes a
reverse-path-like namespace followed optionally by a version segment and a
basename: the basename is the trailing dot-separated segment, the version
is the segment right before it when that segment is recognizable as a
version, and keys without a recognizable version segment yield
`version = none` (non-versioned data types). `fullname` is the original
key. -/
def parseApiTypeName (fullname : String) : ApiTypeName :=
  let parts := jsSplit '.' fullname
  match parts.reverse with
  | [] => { basename := fullname, group := "", version := none, fullname := fullname }
  | [b] => { basename := b, group := "", version := none, fullname := fullname }
  | b :: v :: rest =>
    if isVersionSegment v then
      { basename := b, group := String.intercalate "." rest.reverse,
        version := some ⟨v⟩, fullname := fullname }
    else
      { basename := b, group := String.intercalate "." (v :: rest).reverse,
        version := none, fullname := fullname }

/-! ## Derived names (modelled from the spec) -/

/-- Modelled from the spec: `getTypeName` lives in `codegen.ts`, which is
not among the sources at hand. Per spec §4.3/§4.5, versioned identifiers
get a version-qualified name (basename qualified with the raw version,
capitalization normalized). The `custom` flag mirrors the source's first
argument. -/
def getTypeName (_custom : Bool) (basename : String) (versionRaw : String) : String :=
  pascalCase basename ++ pascalCase versionRaw

/-! ## API object descriptors and the definition-graph scan -/

/-- `ApiObjectDefinition` from `codegen.ts`, as described by spec §3.
The source field `prefix` is a Lean keyword and is embedded as `namePfx`. -/
structure ApiObjectDefinition where
  custom : Bool
  fqn : String
  group : String
  kind : String
  version : String
  schema : SchemaDef
  namePfx : String
deriving DecidableEq

/-- Modelled from the spec: `getConstructTypeName` lives in `codegen.ts`,
which is not among the sources at hand. Per spec §4.4 the wrapper name is
derived from `prefix + kind`, capitalization normalized. -/
def getConstructTypeName (d : ApiObjectDefinition) : String :=
  d.namePfx ++ pascalCase d.kind

/-- Modelled from the spec: `getPropsTypeName` lives in `codegen.ts`,
which is not among the sources at hand. Per spec §4.4 the properties name
is the wrapper name with a fixed `Props` suffix. -/
def getPropsTypeName (d : ApiObjectDefinition) : String :=
  getConstructTypeName d ++ "Props"

/-- The `renderTypeName` closure passed to the `TypeGenerator` constructor
in `generateTypeScript` (`src/import/k8s.ts` lines 77–84): non-versioned
identifiers render as their basename, versioned ones through
`getTypeName`. -/
def renderTypeName (d : String) : String :=
  let parsed := parseApiTypeName d
  match parsed.version with
  | none => parsed.basename
  | some v => getTypeName false parsed.basename v.raw

/-- `findApiObjectDefinitions` from `src/import/k8s.ts`: walk the
definition map in order; entries the classifier rejects are skipped;
accepted entries whose key has no parseable version abort the whole scan
with an error (a thrown exception in the source, `Except.error` here), so
an error discards every descriptor, including those scanned earlier. -/
def findApiObjectDefinitions : List (String × SchemaDef) → String →
    Except String (List ApiObjectDefinition)
  | [], _ => .ok []
  | (typename, apischema) :: rest, pfx =>
    match tryGetObjectName apischema with
    | none => findApiObjectDefinitions rest pfx
    | some objectName =>
      match (parseApiTypeName typename).version with
      | none => .error s!"Unable to parse version for type: {typename}"
      | some _ =>
        (findApiObjectDefinitions rest pfx).map (fun ds =>
          { custom := false
            fqn := (parseApiTypeName typename).fullname
            group := objectName.group
            kind := objectName.kind
            version := objectName.version
            schema := apischema
            namePfx := pfx } :: ds)

/-! ## The rendering-engine state and the generation pipeline -/

/-- A node of the definition graph held by the rendering engine: either a
concrete schema definition or a pure indirection (a lone `$ref`). -/
inductive SchemaNode where
  | concrete : SchemaDef → SchemaNode
  | ref : String → SchemaNode
deriving DecidableEq

/-- Insert-or-replace in an association list (the effect of
`TypeGenerator.addDefinition` on the definition table). -/
def upsert : List (String × SchemaNode) → String → SchemaNode → List (String × SchemaNode)
  | [], n, v => [(n, v)]
  | (k, w) :: rest, n, v =>
    if k = n then (n, v) :: rest else (k, w) :: upsert rest n v

/-- Look a key up in the definition table. -/
def lookupDef : List (String × SchemaNode) → String → Option SchemaNode
  | [], _ => none
  | (k, v) :: rest, n => if k = n then some v else lookupDef rest n

/-- The observable state of the rendering engine (`TypeGenerator` from
`json2jsii`, an external collaborator, spec §6): its definition table and
the list of wrapper types registered by construct generation. -/
structure TypeGeneratorState where
  definitions : List (String × SchemaNode)
  emitted : List String
deriving DecidableEq

/-- `typeGenerator.addDefinition(name, node)`: replace or add the entry
for `name`. -/
def addDefinition (st : TypeGeneratorState) (name : String) (node : SchemaNode) :
    TypeGeneratorState :=
  { st with definitions := upsert st.definitions name node }

/-- Modelled from the spec: `generateConstruct` lives in `codegen.ts`,
which is not among the sources at hand. Per spec §4.5 it registers with
the rendering engine a wrapper type exposing the descriptor's properties
type; only its registration effect is observed here. -/
def generateConstruct (st : TypeGeneratorState) (d : ApiObjectDefinition) :
    TypeGeneratorState :=
  { st with emitted := st.emitted ++ [getConstructTypeName d] }

/-- The pipeline events observed while an import runs. -/
inductive Event where
  | download : String → Event
  | rewrite : String → Event
  | genConstruct : String → Event
deriving DecidableEq

/-- `true` exactly on collision-resolution rewrite events. -/
def Event.isRewrite : Event → Bool
  | .rewrite _ => true
  | _ => false

/-- `true` exactly on construct-generation events. -/
def Event.isGenConstruct : Event → Bool
  | .genConstruct _ => true
  | _ => false

/-- The default class name prefix (`DEFAULT_CLASS_NAME_PREFIX` in the
source, renamed because `prefix` is a Lean keyword). -/
def DEFAULT_CLASS_NAME_PFX : String := "Kube"

/-- One iteration of the collision-resolution rewrite loop
(`src/import/k8s.ts` lines 92–94): replace the descriptor's original
definition key with a lone `$ref` to its properties-type name. -/
def rewriteStep (st : TypeGeneratorState) (o : ApiObjectDefinition) : TypeGeneratorState :=
  addDefinition st o.fqn (SchemaNode.ref ("#/definitions/" ++ getPropsTypeName o))

/-- `ImportKubernetesApi.generateTypeScript` from `src/import/k8s.ts`
(lines 64–104), starting after the schema download: check the module name,
scan the definitions, build the type generator over the schema's
definitions, then run the collision-resolution rewrite loop over all
discovered descriptors, and only afterwards the construct-generation loop.
Returns the final generator state together with the ordered trace of
rewrite and construct-generation events. -/
def generateTypeScript (schema : List (String × SchemaDef)) (moduleName : String)
    (classNamePfx : Option String) :
    Except String (TypeGeneratorState × List Event) :=
  if moduleName ≠ "k8s" then
    .error s!"unexpected module name \x22{moduleName}\x22 when importing k8s types (expected \x22k8s\x22)"
  else
    match findApiObjectDefinitions schema (classNamePfx.getD DEFAULT_CLASS_NAME_PFX) with
    | .error e => .error e
    | .ok topLevelObjects =>
      let st0 : TypeGeneratorState :=
        { definitions := schema.map (fun p => (p.1, SchemaNode.concrete p.2))
          emitted := [] }
      let st1 := topLevelObjects.foldl rewriteStep st0
      let st2 := topLevelObjects.foldl generateConstruct st1
      .ok (st2, topLevelObjects.map (fun o => Event.rewrite o.fqn)
        ++ topLevelObjects.map (fun o => Event.genConstruct o.fqn))

/-- The definition table produced by a successful `generateTypeScript`
run for module `k8s`. -/
def generatedDefinitions (schema : List (String × SchemaDef)) (classNamePfx : Option String) :
    Option (List (String × SchemaNode)) :=
  match generateTypeScript schema "k8s" classNamePfx with
  | .ok (st, _) => some st.definitions
  | .error _ => none

/-- The event trace of a successful `generateTypeScript` run for module
`k8s`. -/
def generatedEvents (schema : List (String × SchemaDef)) (classNamePfx : Option String) :
    Option (List Event) :=
  match generateTypeScript schema "k8s" classNamePfx with
  | .ok (_, evs) => some evs
  | .error _ => none

/-! ## The import-spec matcher -/

/-- `DEFAULT_API_VERSION` from `src/import/k8s.ts`. -/
def DEFAULT_API_VERSION : String := "1.25.0"

/-- The options `ImportKubernetesApi.match` returns on a positive match
(`ImportKubernetesApiOptions`). -/
structure ImportOptions where
  apiVersion : String
  exclude : Option (List String)
deriving DecidableEq

/-- The regex `^\d+\.\d+\.\d+$` applied to `v`: exactly three
dot-separated groups, each a non-empty run of digits. -/
def k8sVersionRegexTest (v : String) : Bool :=
  match jsSplit '.' v with
  | [a, b, c] =>
    !a.toList.isEmpty && a.toList.all Char.isDigit &&
    !b.toList.isEmpty && b.toList.all Char.isDigit &&
    !c.toList.isEmpty && c.toList.all Char.isDigit
  | _ => false

/-- The message of the version-format error thrown by
`ImportKubernetesApi.match`. -/
def formatErrMsg (v : String) : String :=
  s!"Expected k8s version \x22{v}\x22 to match format \x22<major>.<minor>.<patch>\x22."

/-- `ImportKubernetesApi.match` from `src/import/k8s.ts` (lines 35–54):
sources other than `k8s`/`k8s@...` do not match (`.ok none`); otherwise
the version is `source.split('@')[1]`, falling back to
`DEFAULT_API_VERSION` only when that index is absent; a version failing
the format regex throws. The function performs no schema retrieval. -/
def matchK8s (source : String) (exclude : Option (List String)) :
    Except String (Option ImportOptions) :=
  if (source != "k8s" && !(jsStartsWith "k8s@" source)) then
    .ok none
  else
    let k8sVersion := ((jsSplit '@' source).get? 1).getD DEFAULT_API_VERSION
    if k8sVersionRegexTest k8sVersion then
      .ok (some { apiVersion := k8sVersion, exclude := exclude })
    else
      .error (formatErrMsg k8sVersion)

/-! ## Schema download -/

/-- The schema URL for an API version (`downloadSchema`,
`src/import/k8s.ts` line 174). -/
def schemaUrl (apiVersion : String) : String :=
  "https://raw.githubusercontent.com/cdk8s-team/cdk8s/master/kubernetes-schemas/v"
    ++ apiVersion ++ "/_definitions.json"

/-- The diagnostic printed when the schema download fails; it points at
the public directory listing the valid schema versions. -/
def couldNotFindDiag (apiVersion : String) : String :=
  s!"Could not find a schema for k8s version {apiVersion}. The current list of available schemas is at https://github.com/cdk8s-team/cdk8s/tree/master/kubernetes-schemas."

/-- The message wrapping a schema-parse failure with the source URL. -/
def parseFailMsg (apiVersion : String) (e : String) : String :=
  s!"Unable to parse schema at {schemaUrl apiVersion}: {e}"

/-- `downloadSchema` from `src/import/k8s.ts` (lines 173–187), with the
network download and the JSON parser (`download` from `util.ts`,
`safeParseJsonSchema` from `k8s-util.ts`, both external to the sources at
hand) passed in as functions. Returns the result together with the list of
console diagnostics printed: a download failure prints the
where-to-find-versions diagnostic and re-raises the underlying error
unchanged; a parse failure is wrapped with the source URL. -/
def downloadSchema (apiVersion : String)
    (dl : String → Except String String)
    (parseSchema : String → Except String (List (String × SchemaDef))) :
    Except String (List (String × SchemaDef)) × List String :=
  match dl (schemaUrl apiVersion) with
  | .error e => (.error e, [couldNotFindDiag apiVersion])
  | .ok output =>
    match parseSchema output with
    | .error e => (.error (parseFailMsg apiVersion e), [])
    | .ok schema => (.ok schema, [])

/-- The orchestration of one import run: the matcher runs first, purely;
only a positive match triggers the schema download (recorded as a
`download` event) and then code generation. The returned event list shows
which I/O was attempted. -/
def runImport (source : String) (exclude : Option (List String))
    (dl : String → Except String String)
    (parseSchema : String → Except String (List (String × SchemaDef))) :
    Except String (Option TypeGeneratorState) × List Event × List String :=
  match matchK8s source exclude with
  | .error e => (.error e, [], [])
  | .ok none => (.ok none, [], [])
  | .ok (some opts) =>
    let url := schemaUrl opts.apiVersion
    let (res, diags) := downloadSchema opts.apiVersion dl parseSchema
    match res with
    | .error e => (.error e, [Event.download url], diags)
    | .ok schema =>
      match generateTypeScript schema "k8s" none with
      | .error e => (.error e, [Event.download url], diags)
      | .ok (st, evs) => (.ok (some st), Event.download url :: evs, diags)

/-! ## Derived-name inventory (for the collision-freedom claim) -/

/-- The combined name inventory after scan and rewrite: wrapper names and
properties names of all discovered descriptors, plus the rendered names of
every other original definition key. -/
def combinedNames (schema : List (String × SchemaDef)) (pfx : String) :
    Except String (List String) :=
  match findApiObjectDefinitions schema pfx with
  | .error e => .error e
  | .ok tops =>
    let fqns := tops.map (fun d => d.fqn)
    let others := (schema.map Prod.fst).filter (fun k => !fqns.contains k)
    .ok (tops.map getConstructTypeName ++ tops.map getPropsTypeName
      ++ others.map renderTypeName)

/-- The (group, kind, version) triples of the descriptors a successful
scan produces, in scan order. -/
def scanTriples (schema : List (String × SchemaDef)) (pfx : String) :
    Option (List (String × String × String)) :=
  match findApiObjectDefinitions schema pfx with
  | .error _ => none
  | .ok tops => some (tops.map (fun d => (d.group, d.kind, d.version)))

/-! ## Concrete definition graphs used by witnesses and counterexamples -/

/-- An annotation triple for a `Widget` resource. -/
def widgetGvk : GroupVersionKind := { group := "grp", version := "v1", kind := "Widget" }

/-- An API-object definition: annotated and with a `metadata` property. -/
def widgetDef : SchemaDef :=
  { xKubernetesGroupVersionKind := some [widgetGvk], properties := some ["metadata", "spec"] }

/-- A plain data shape: no annotation. -/
def widgetSpecDef : SchemaDef :=
  { xKubernetesGroupVersionKind := none, properties := some ["replicas"] }

/-- A well-formed two-entry graph: one API object, one data type. -/
def okGraph : List (String × SchemaDef) :=
  [("grp.v1.Widget", widgetDef), ("grp.v1.WidgetSpec", widgetSpecDef)]

/-- The descriptor the scan derives from `okGraph`'s first entry. -/
def widgetDescriptor : ApiObjectDefinition :=
  { custom := false, fqn := "grp.v1.Widget", group := "grp", kind := "Widget",
    version := "v1", schema := widgetDef, namePfx := "Kube" }

/-- An annotated API object whose definition key has no version segment. -/
def gadgetDef : SchemaDef :=
  { xKubernetesGroupVersionKind := some [{ group := "grp", version := "v1", kind := "Gadget" }],
    properties := some ["metadata"] }

/-- A graph whose second entry is classified as an API object but sits
under the unversioned key `misc.Gadget`. -/
def noVersionGraph : List (String × SchemaDef) :=
  [("grp.v1.Widget", widgetDef), ("misc.Gadget", gadgetDef)]

/-- A second API-object definition carrying the same annotation triple. -/
def widgetDefB : SchemaDef :=
  { xKubernetesGroupVersionKind := some [widgetGvk], properties := some ["metadata"] }

/-- A graph with two distinct keys carrying the same annotation triple. -/
def dupGraph : List (String × SchemaDef) :=
  [("a.v1.Widget", widgetDef), ("b.v1.Widget", widgetDefB)]

/-- The descriptor the scan derives from `dupGraph`'s first entry. -/
def aWidgetDescriptor : ApiObjectDefinition :=
  { custom := false, fqn := "a.v1.Widget", group := "grp", kind := "Widget",
    version := "v1", schema := widgetDef, namePfx := "Kube" }

/-- The descriptor the scan derives from `dupGraph`'s second entry. -/
def bWidgetDescriptor : ApiObjectDefinition :=
  { custom := false, fqn := "b.v1.Widget", group := "grp", kind := "Widget",
    version := "v1", schema := widgetDefB, namePfx := "Kube" }


/-! ## Helper lemmas on the embedded string primitives -/

theorem toList_append (a b : String) : (a ++ b).toList = a.toList ++ b.toList := by
  cases a
  cases b
  rfl

theorem mk_toList (s : String) : String.mk s.toList = s := by
  cases s
  rfl

theorem listIsPfxOf_self_append (as bs : List Char) : listIsPfxOf as (as ++ bs) = true := by
  induction as with
  | nil => rfl
  | cons a t ih => simp [listIsPfxOf, ih]

theorem jsStartsWith_self_append (p v : String) : jsStartsWith p (p ++ v) = true := by
  rw [jsStartsWith, toList_append]
  exact listIsPfxOf_self_append _ _

theorem listIsPfxOf_iff (as bs : List Char) :
    listIsPfxOf as bs = true ↔ ∃ t, bs = as ++ t := by
  induction as generalizing bs with
  | nil => simp [listIsPfxOf]
  | cons a tl ih =>
    cases bs with
    | nil => simp [listIsPfxOf]
    | cons b bt =>
      simp only [listIsPfxOf, Bool.and_eq_true, beq_iff_eq, ih, List.cons_append,
        List.cons.injEq]
      constructor
      · rintro ⟨rfl, t, rfl⟩
        exact ⟨t, rfl, rfl⟩
      · rintro ⟨t, rfl, rfl⟩
        exact ⟨rfl, t, rfl⟩

theorem splitCharList_ne_nil (c : Char) (l : List Char) : splitCharList c l ≠ [] := by
  cases l with
  | nil => simp [splitCharList]
  | cons x xs =>
    simp only [splitCharList]
    split
    · simp
    · split <;> simp

theorem splitCharList_of_not_mem (c : Char) (l : List Char) (h : c ∉ l) :
    splitCharList c l = [l] := by
  induction l with
  | nil => rfl
  | cons x xs ih =>
    simp only [List.mem_cons, not_or] at h
    have hx : ¬(x = c) := fun hxc => h.1 (hxc ▸ rfl)
    rw [splitCharList, ih h.2]
    simp [hx]

theorem splitCharList_k8sAt (t : List Char) :
    splitCharList '@' ('k' :: '8' :: 's' :: '@' :: t)
      = ['k', '8', 's'] :: splitCharList '@' t := by
  simp [splitCharList]

theorem toList_k8sAt_append (v : String) :
    ("k8s@" ++ v).toList = 'k' :: '8' :: 's' :: '@' :: v.toList := by
  cases v
  rfl

theorem jsSplit_k8sAt (v : String) :
    jsSplit '@' ("k8s@" ++ v)
      = "k8s" :: (splitCharList '@' v.toList).map (fun l => String.mk l) := by
  rw [jsSplit, toList_k8sAt_append, splitCharList_k8sAt]
  rfl

/-! ## Helper lemmas on parsing and the scan -/

theorem parseApiTypeName_fullname (s : String) : (parseApiTypeName s).fullname = s := by
  rw [parseApiTypeName]
  rcases (jsSplit '.' s).reverse with _ | ⟨b, _ | ⟨v, rest⟩⟩
  · rfl
  · rfl
  · by_cases h : isVersionSegment v = true <;> simp [h]

theorem scan_fqns_sublist (schema : List (String × SchemaDef)) (pfx : String)
    (tops : List ApiObjectDefinition)
    (h : findApiObjectDefinitions schema pfx = .ok tops) :
    (tops.map (fun o => o.fqn)).Sublist (schema.map Prod.fst) := by
  induction schema generalizing tops with
  | nil =>
    simp only [findApiObjectDefinitions, Except.ok.injEq] at h
    subst h
    simp
  | cons hd tl ih =>
    obtain ⟨k, v⟩ := hd
    cases hg : tryGetObjectName v with
    | none =>
      rw [findApiObjectDefinitions, hg] at h
      exact (ih tops h).cons _
    | some g =>
      cases hv : (parseApiTypeName k).version with
      | none =>
        rw [findApiObjectDefinitions, hg, hv] at h
        cases h
      | some pv =>
        rw [findApiObjectDefinitions, hg, hv] at h
        cases hrec : findApiObjectDefinitions tl pfx with
        | error e =>
          rw [hrec] at h
          cases h
        | ok ds =>
          rw [hrec] at h
          simp only [Except.map, Except.ok.injEq] at h
          subst h
          simp only [List.map_cons, List.map, parseApiTypeName_fullname]
          exact (ih ds hrec).cons₂ _

/-! ## Helper lemmas on the rendering-engine definition table -/

theorem lookupDef_upsert_self (l : List (String × SchemaNode)) (n : String) (v : SchemaNode) :
    lookupDef (upsert l n v) n = some v := by
  induction l with
  | nil => simp [upsert, lookupDef]
  | cons hd tl ih =>
    obtain ⟨k, w⟩ := hd
    by_cases h : k = n
    · simp [upsert, h, lookupDef]
    · simp [upsert, h, lookupDef, ih]

theorem lookupDef_upsert_other (l : List (String × SchemaNode)) (n m : String) (v : SchemaNode)
    (h : n ≠ m) :
    lookupDef (upsert l n v) m = lookupDef l m := by
  induction l with
  | nil => simp [upsert, lookupDef, h]
  | cons hd tl ih =>
    obtain ⟨k, w⟩ := hd
    by_cases hk : k = n
    · subst hk
      simp [upsert, lookupDef, h, ih]
    · simp [upsert, hk, lookupDef, ih]

theorem lookupDef_foldl_rewrite_not_mem (l : List ApiObjectDefinition)
    (st : TypeGeneratorState) (k : String) (hk : k ∉ l.map (fun o => o.fqn)) :
    lookupDef (l.foldl rewriteStep st).definitions k = lookupDef st.definitions k := by
  induction l generalizing st with
  | nil => rfl
  | cons a tl ih =>
    simp only [List.map_cons, List.mem_cons, not_or] at hk
    rw [List.foldl_cons, ih _ (by simpa using hk.2)]
    exact lookupDef_upsert_other _ _ _ _ (fun h => hk.1 h.symm)

theorem lookupDef_foldl_rewrite_mem (l : List ApiObjectDefinition)
    (st : TypeGeneratorState) (o : ApiObjectDefinition) (ho : o ∈ l)
    (hnd : (l.map (fun o => o.fqn)).Nodup) :
    lookupDef (l.foldl rewriteStep st).definitions o.fqn
      = some (SchemaNode.ref ("#/definitions/" ++ getPropsTypeName o)) := by
  induction l generalizing st with
  | nil => cases ho
  | cons a tl ih =>
    simp only [List.map_cons, List.nodup_cons] at hnd
    rw [List.foldl_cons]
    rcases List.mem_cons.mp ho with rfl | hmem
    · rw [lookupDef_foldl_rewrite_not_mem tl _ _ hnd.1]
      exact lookupDef_upsert_self _ _ _
    · exact ih _ hmem hnd.2

theorem definitions_foldl_generateConstruct (l : List ApiObjectDefinition)
    (st : TypeGeneratorState) :
    (l.foldl generateConstruct st).definitions = st.definitions := by
  induction l generalizing st with
  | nil => rfl
  | cons a tl ih =>
    rw [List.foldl_cons, ih]
    rfl

/-! ## Claim C1 -/

/-- Claim C1: for every schema definition node, `tryGetObjectName` returns a
group/version/kind triple exactly when the node carries the
`x-kubernetes-group-version-kind` annotation with at least one entry and
declares a `metadata` property, and the triple returned is the first listed
one. In every other case (annotation absent, annotation an empty list, or
no `metadata` property) it returns `none` — "not an API object"; the
function is total, so no error can be raised. -/
theorem c1_tryGetObjectName_iff (d : SchemaDef) (g : GroupVersionKind) :
    tryGetObjectName d = some g ↔
      ((d.properties.getD []).contains "metadata" = true ∧
        ∃ rest, d.xKubernetesGroupVersionKind = some (g :: rest)) := by
  rw [tryGetObjectName]
  cases hx : d.xKubernetesGroupVersionKind with
  | none => simp
  | some l =>
    cases l with
    | nil => simp
    | cons a as =>
      by_cases hm : (d.properties.getD []).contains "metadata" = true
      · simp only [hm, if_pos, Option.some.injEq, true_and, List.cons.injEq]
        constructor
        · rintro rfl
          exact ⟨as, rfl, rfl⟩
        · rintro ⟨rest, rfl, _⟩
          rfl
      · simp only [Bool.not_eq_true] at hm
        simp [hm]

/-! ## Claim C2 -/

/-- Claim C2: if any entry of the definition graph that the classifier
accepts as an API object has a key with no parseable version, the whole
scan `findApiObjectDefinitions` fails with an error and returns no
descriptors at all — not even for valid entries scanned earlier; the scan
is all-or-nothing (the source throws, discarding the accumulated array). -/
theorem c2_scan_all_or_nothing (schema : List (String × SchemaDef)) (pfx typename : String)
    (apischema : SchemaDef)
    (hmem : (typename, apischema) ∈ schema)
    (hcls : (tryGetObjectName apischema).isSome = true)
    (hver : (parseApiTypeName typename).version = none) :
    ∃ e, findApiObjectDefinitions schema pfx = .error e := by
  induction schema with
  | nil => cases hmem
  | cons hd tl ih =>
    obtain ⟨k, v⟩ := hd
    rcases List.mem_cons.mp hmem with heq | hmem'
    · obtain ⟨hk, hv⟩ := Prod.mk.injEq .. ▸ heq
      subst hk
      subst hv
      obtain ⟨g, hg⟩ := Option.isSome_iff_exists.mp hcls
      exact ⟨_, by rw [findApiObjectDefinitions, hg, hver]⟩
    · obtain ⟨e, he⟩ := ih hmem'
      cases hg : tryGetObjectName v with
      | none => exact ⟨e, by rw [findApiObjectDefinitions, hg, he]⟩
      | some g =>
        cases hpv : (parseApiTypeName k).version with
        | none => exact ⟨_, by rw [findApiObjectDefinitions, hg, hpv]⟩
        | some pv =>
          exact ⟨e, by rw [findApiObjectDefinitions, hg, hpv, he]; rfl⟩

/-- Concrete instantiation of C2: `noVersionGraph` holds a valid entry
followed by a classified API object under the unversioned key
`misc.Gadget`, and the scan returns an error instead of any descriptors. -/
theorem c2_witness :
    ("misc.Gadget", gadgetDef) ∈ noVersionGraph ∧
      (tryGetObjectName gadgetDef).isSome = true ∧
      (parseApiTypeName "misc.Gadget").version = none ∧
      ∃ e, findApiObjectDefinitions noVersionGraph "Kube" = .error e :=
  ⟨by decide, by decide, by decide,
    c2_scan_all_or_nothing noVersionGraph "Kube" "misc.Gadget" gadgetDef
      (by decide) (by decide) (by decide)⟩

/-! ## Claim C3 -/

/-- Claim C3: for every descriptor discovered by the scan, the generation
pipeline replaces the descriptor's original definition key in the graph
with a pure indirection — a lone `$ref` whose target is the descriptor's
properties-type name — so references to the original key resolve to the
properties type. -/
theorem c3_rewrite_indirection (schema : List (String × SchemaDef)) (pfxOpt : Option String)
    (tops : List ApiObjectDefinition) (o : ApiObjectDefinition)
    (hnd : (schema.map Prod.fst).Nodup)
    (hscan : findApiObjectDefinitions schema (pfxOpt.getD DEFAULT_CLASS_NAME_PFX) = .ok tops)
    (ho : o ∈ tops) :
    ∃ defs, generatedDefinitions schema pfxOpt = some defs ∧
      lookupDef defs o.fqn
        = some (SchemaNode.ref ("#/definitions/" ++ getPropsTypeName o)) := by
  have hfq : (tops.map (fun o => o.fqn)).Nodup :=
    (scan_fqns_sublist schema _ tops hscan).nodup hnd
  rw [generatedDefinitions, generateTypeScript]
  simp only [ne_eq, not_true_eq_false, if_false, reduceIte]
  rw [hscan]
  refine ⟨_, rfl, ?_⟩
  rw [definitions_foldl_generateConstruct]
  exact lookupDef_foldl_rewrite_mem tops _ o ho hfq

/-- Concrete instantiation of C3 on `okGraph`: after the pipeline runs, the
key `grp.v1.Widget` maps to a lone `$ref` to `KubeWidgetProps`. -/
theorem c3_witness :
    ∃ defs, generatedDefinitions okGraph none = some defs ∧
      lookupDef defs widgetDescriptor.fqn
        = some (SchemaNode.ref ("#/definitions/" ++ getPropsTypeName widgetDescriptor)) :=
  c3_rewrite_indirection okGraph none [widgetDescriptor] widgetDescriptor
    (by decide) (by decide) (by decide)

/-! ## Claim C4 -/

/-- Claim C4: in one import run, every collision-resolution rewrite event
precedes every construct-generation event in the pipeline's trace: no
`generateConstruct` call happens until every descriptor's key has been
rewritten — a global barrier, not a per-descriptor pipeline. -/
theorem c4_rewrites_before_constructs (schema : List (String × SchemaDef))
    (pfxOpt : Option String) (evs : List Event) (i j : Nat) (e₁ e₂ : Event)
    (hevs : generatedEvents schema pfxOpt = some evs)
    (h₁ : evs.get? i = some e₁) (hr : e₁.isRewrite = true)
    (h₂ : evs.get? j = some e₂) (hg : e₂.isGenConstruct = true) :
    i < j := by
  rw [generatedEvents, generateTypeScript] at hevs
  simp only [ne_eq, not_true_eq_false, if_false, reduceIte] at hevs
  cases hscan : findApiObjectDefinitions schema (pfxOpt.getD DEFAULT_CLASS_NAME_PFX) with
  | error e =>
    rw [hscan] at hevs
    cases hevs
  | ok tops =>
    rw [hscan] at hevs
    simp only [Option.some.injEq] at hevs
    subst hevs
    have hi : i < (tops.map (fun o => Event.rewrite o.fqn)).length := by
      by_contra hc
      rw [List.get?_append_right (Nat.le_of_not_lt hc)] at h₁
      obtain ⟨o, -, heq⟩ := List.mem_map.mp (List.get?_mem h₁)
      rw [← heq] at hr
      cases hr
    have hj : (tops.map (fun o => Event.rewrite o.fqn)).length ≤ j := by
      by_contra hc
      rw [List.get?_append (Nat.lt_of_not_le hc)] at h₂
      obtain ⟨o, -, heq⟩ := List.mem_map.mp (List.get?_mem h₂)
      rw [← heq] at hg
      cases hg
    exact Nat.lt_of_lt_of_le hi hj

/-- Concrete instantiation of C4 on `okGraph`: the trace holds the rewrite
event at index 0 and the construct-generation event at index 1. -/
theorem c4_witness :
    generatedEvents okGraph none
        = some [Event.rewrite "grp.v1.Widget", Event.genConstruct "grp.v1.Widget"] ∧
      (0 : Nat) < 1 :=
  ⟨by decide,
    c4_rewrites_before_constructs okGraph none
      [Event.rewrite "grp.v1.Widget", Event.genConstruct "grp.v1.Widget"] 0 1
      (Event.rewrite "grp.v1.Widget") (Event.genConstruct "grp.v1.Widget")
      (by decide) (by decide) (by decide) (by decide) (by decide)⟩

/-! ## Claim C5 -/

/-- Claim C5 counterexample: on `dupGraph` — two definitions with the same
kind `Widget` under distinct keys — the scan succeeds, the combined set of
derived wrapper names, derived properties names and remaining original
names contains duplicates, and the whole pipeline still succeeds: no fatal
collision error is raised, refuting the claimed collision freedom. -/
theorem c5_counterexample :
    combinedNames dupGraph "Kube"
        = .ok ["KubeWidget", "KubeWidget", "KubeWidgetProps", "KubeWidgetProps"] ∧
      ¬ (["KubeWidget", "KubeWidget", "KubeWidgetProps", "KubeWidgetProps"] :
          List String).Nodup ∧
      (generateTypeScript dupGraph "k8s" none).isOk = true :=
  ⟨by decide, by decide, by decide⟩

/-- Claim C5, amended: only the per-descriptor part of the invariant holds —
a descriptor's properties-type name never collides with its own wrapper
name (it extends it by the fixed `Props` suffix). Across descriptors, and
against other original type names, no uniqueness is guaranteed and no
collision check or fatal error exists in the pipeline. -/
theorem c5_amended_wrapper_props_distinct (d : ApiObjectDefinition) :
    getConstructTypeName d ≠ getPropsTypeName d := by
  intro h
  have hlen := congrArg String.length h
  rw [getPropsTypeName, String.length_append] at hlen
  have hprops : "Props".length = 5 := rfl
  rw [hprops] at hlen
  omega

/-! ## Claim C6 -/

/-- Claim C6 counterexample: on `dupGraph`, two definitions under distinct
keys carry the same annotation triple, and a single scan produces two
descriptors with the identical (group, kind, version) triple
`("grp", "Widget", "v1")` — the triple does not uniquely identify a
descriptor. -/
theorem c6_counterexample :
    scanTriples dupGraph "Kube"
        = some [("grp", "Widget", "v1"), ("grp", "Widget", "v1")] ∧
      ¬ ([("grp", "Widget", "v1"), ("grp", "Widget", "v1")] :
          List (String × String × String)).Nodup :=
  ⟨by decide, by decide⟩

/-- Claim C6, amended: the second half of the claim holds — a single scan
never produces two descriptors for the same definition key: when the
definition map's keys are pairwise distinct (as JavaScript object keys
are), the descriptors' fully qualified names are pairwise distinct. The
(group, kind, version) triple, taken from the annotation, need not be
unique across descriptors. -/
theorem c6_amended_unique_fqns (schema : List (String × SchemaDef)) (pfx : String)
    (tops : List ApiObjectDefinition)
    (hnd : (schema.map Prod.fst).Nodup)
    (hscan : findApiObjectDefinitions schema pfx = .ok tops) :
    (tops.map (fun o => o.fqn)).Nodup :=
  (scan_fqns_sublist schema pfx tops hscan).nodup hnd

/-- Concrete instantiation of the amended C6 on `dupGraph`. -/
theorem c6_witness :
    (dupGraph.map Prod.fst).Nodup ∧
      findApiObjectDefinitions dupGraph "Kube" = .ok [aWidgetDescriptor, bWidgetDescriptor] ∧
      (([aWidgetDescriptor, bWidgetDescriptor].map (fun o => o.fqn)) : List String).Nodup :=
  ⟨by decide, by decide,
    c6_amended_unique_fqns dupGraph "Kube" [aWidgetDescriptor, bWidgetDescriptor]
      (by decide) (by decide)⟩

/-! ## Helper lemmas on the matcher -/

theorem matchK8s_k8sAt (v : String) (excl : Option (List String)) (hat : '@' ∉ v.toList) :
    matchK8s ("k8s@" ++ v) excl =
      if k8sVersionRegexTest v then .ok (some { apiVersion := v, exclude := excl })
      else .error (formatErrMsg v) := by
  rw [matchK8s, jsStartsWith_self_append]
  simp only [Bool.not_true, Bool.and_false, Bool.false_eq_true, if_false]
  rw [jsSplit_k8sAt, splitCharList_of_not_mem _ _ hat]
  simp only [List.map_cons, List.map_nil, List.get?_cons_succ, List.get?_cons_zero,
    Option.getD_some, mk_toList]

theorem jsSplit_at_of_startsWith (s : String) (h : jsStartsWith "k8s@" s = true) :
    ∃ w ws, jsSplit '@' s
      = "k8s" :: String.mk w :: List.map (fun l => String.mk l) ws := by
  obtain ⟨t, ht⟩ := (listIsPfxOf_iff _ _).mp h
  obtain ⟨w, ws, hws⟩ := List.exists_cons_of_ne_nil (splitCharList_ne_nil '@' t)
  refine ⟨w, ws, ?_⟩
  rw [jsSplit, ht]
  have hred : ("k8s@".toList ++ t) = 'k' :: '8' :: 's' :: '@' :: t := rfl
  rw [hred, splitCharList_k8sAt, hws]
  rfl

/-! ## Claim C7 -/

/-- Claim C7 counterexample: the source `k8s@1.2.3@x` selects the k8s
family with the explicit version suffix `1.2.3@x`, which does not match
the strict `<major>.<minor>.<patch>` format, yet the matcher raises no
error: it accepts the spec with version `1.2.3` (only the text between the
first and the second `@` is validated, because the source takes
`source.split('@')[1]`), and the import proceeds to schema retrieval. -/
theorem c7_counterexample :
    k8sVersionRegexTest "1.2.3@x" = false ∧
      matchK8s ("k8s@" ++ "1.2.3@x") none
        = .ok (some { apiVersion := "1.2.3", exclude := none }) ∧
      runImport ("k8s@" ++ "1.2.3@x") none (fun _ => .error "boom") (fun _ => .error "bad")
        = (.error "boom", [Event.download (schemaUrl "1.2.3")], [couldNotFindDiag "1.2.3"]) :=
  ⟨by decide, by decide, by decide⟩

/-- Claim C7, amended: for every source `k8s@<v>` whose version suffix `<v>`
contains no further `@`, if `<v>` fails the strict
`<major>.<minor>.<patch>` all-digit format, the matcher raises the
descriptive format error and the run performs no schema retrieval or
parsing whatsoever (empty event and diagnostic lists). When the suffix
contains another `@`, only the text before the second `@` is validated. -/
theorem c7_amended_format_error_before_io (v : String) (excl : Option (List String))
    (dl : String → Except String String)
    (parseSchema : String → Except String (List (String × SchemaDef)))
    (hat : '@' ∉ v.toList)
    (hfmt : k8sVersionRegexTest v = false) :
    runImport ("k8s@" ++ v) excl dl parseSchema = (.error (formatErrMsg v), [], []) := by
  rw [runImport, matchK8s_k8sAt v excl hat, hfmt]
  rfl

/-- Concrete instantiation of the amended C7 at suffix `abc`. -/
theorem c7_witness :
    '@' ∉ "abc".toList ∧ k8sVersionRegexTest "abc" = false ∧
      runImport ("k8s@" ++ "abc") none (fun _ => .error "boom") (fun _ => .error "bad")
        = (.error (formatErrMsg "abc"), [], []) :=
  ⟨by decide, by decide,
    c7_amended_format_error_before_io "abc" none _ _ (by decide) (by decide)⟩

/-! ## Claim C8 -/

/-- Claim C8: when schema retrieval fails, `downloadSchema` emits the
user-facing diagnostic pointing at the public list of valid schema
versions and re-raises the original failure unchanged — no fallback to a
cached or default schema; when retrieval succeeds but the document cannot
be parsed, the failure is wrapped in an error carrying the source URL. -/
theorem c8_downloadSchema_failures :
    (∀ (v e : String) (dl : String → Except String String)
        (parseSchema : String → Except String (List (String × SchemaDef))),
      dl (schemaUrl v) = .error e →
        downloadSchema v dl parseSchema = (.error e, [couldNotFindDiag v])) ∧
      (∀ (v s e : String) (dl : String → Except String String)
          (parseSchema : String → Except String (List (String × SchemaDef))),
        dl (schemaUrl v) = .ok s → parseSchema s = .error e →
          downloadSchema v dl parseSchema = (.error (parseFailMsg v e), [])) := by
  constructor
  · intro v e dl parseSchema h
    rw [downloadSchema, h]
  · intro v s e dl parseSchema h₁ h₂
    simp only [downloadSchema, h₁, h₂]

/-- Concrete instantiation of C8: a failing download re-raises `boom` with
the diagnostic; a succeeding download with an unparseable document yields
the URL-wrapping error. -/
theorem c8_witness :
    downloadSchema "1.25.0" (fun _ => .error "boom") (fun _ => .error "bad")
        = (.error "boom", [couldNotFindDiag "1.25.0"]) ∧
      downloadSchema "1.25.0" (fun _ => .ok "notjson") (fun _ => .error "bad")
        = (.error (parseFailMsg "1.25.0" "bad"), []) :=
  ⟨c8_downloadSchema_failures.1 "1.25.0" "boom" _ _ rfl,
    c8_downloadSchema_failures.2 "1.25.0" "notjson" "bad" _ _ rfl rfl⟩

/-! ## Claim C9 -/

/-- Claim C9: the name-rendering function handed to the rendering engine
maps every definition key with a parseable version to the version-qualified
type name (`getTypeName false basename version.raw`), and every key without
a version to its bare basename. -/
theorem c9_renderTypeName_cases :
    (∀ key, (parseApiTypeName key).version = none →
        renderTypeName key = (parseApiTypeName key).basename) ∧
      (∀ key v, (parseApiTypeName key).version = some v →
        renderTypeName key = getTypeName false (parseApiTypeName key).basename v.raw) := by
  constructor
  · intro key h
    rw [renderTypeName]
    simp only [h]
  · intro key v h
    rw [renderTypeName]
    simp only [h]

/-- Concrete instantiation of C9: the unversioned key `misc.Gadget` renders
as its basename, the versioned key `grp.v1.Widget` through `getTypeName`. -/
theorem c9_witness :
    (parseApiTypeName "misc.Gadget").version = none ∧
      renderTypeName "misc.Gadget" = (parseApiTypeName "misc.Gadget").basename ∧
      (parseApiTypeName "grp.v1.Widget").version = some ⟨"v1"⟩ ∧
      renderTypeName "grp.v1.Widget"
        = getTypeName false (parseApiTypeName "grp.v1.Widget").basename "v1" :=
  ⟨by decide, c9_renderTypeName_cases.1 "misc.Gadget" (by decide), by decide,
    c9_renderTypeName_cases.2 "grp.v1.Widget" ⟨"v1"⟩ (by decide)⟩

/-! ## Claim C10 -/

/-- Claim C10: the fixed baseline version is used only when the source has
no `@` separator at all: the exact source `k8s` yields the default
version; the source `k8s@` (empty version suffix) raises the version-format
error instead of falling back to the default; every source starting with
`k8s@` either matches or throws — it is never "no match" — and on a match
its version is taken from `split('@')[1]` of the source, never from the
default. -/
theorem c10_default_only_without_at :
    (∀ excl, matchK8s "k8s@" excl = .error (formatErrMsg "")) ∧
      (∀ excl, matchK8s "k8s" excl
        = .ok (some { apiVersion := DEFAULT_API_VERSION, exclude := excl })) ∧
      (∀ s excl, jsStartsWith "k8s@" s = true → matchK8s s excl ≠ .ok none) ∧
      (∀ s excl opts, jsStartsWith "k8s@" s = true → matchK8s s excl = .ok (some opts) →
        (jsSplit '@' s).get? 1 = some opts.apiVersion) := by
  refine ⟨fun excl => rfl, fun excl => rfl, ?_, ?_⟩
  · intro s excl h
    rw [matchK8s, h]
    simp only [Bool.not_true, Bool.and_false, Bool.false_eq_true, if_false]
    split
    · intro hc
      cases hc
    · intro hc
      cases hc
  · intro s excl opts h hm
    obtain ⟨w, ws, hsp⟩ := jsSplit_at_of_startsWith s h
    rw [matchK8s, h] at hm
    simp only [Bool.not_true, Bool.and_false, Bool.false_eq_true, if_false, hsp,
      List.get?_cons_succ, List.get?_cons_zero, Option.getD_some] at hm
    rw [hsp]
    cases hreg : k8sVersionRegexTest (String.mk w) with
    | false =>
      rw [hreg] at hm
      cases hm
    | true =>
      rw [hreg] at hm
      simp only [if_true, Except.ok.injEq, Option.some.injEq] at hm
      rw [← hm]
      rfl

/-- Concrete instantiation of C10 at the sources `k8s@`, `k8s`, `k8s@x`
and `k8s@1.2.3`. -/
theorem c10_witness :
    matchK8s "k8s@" none = .error (formatErrMsg "") ∧
      matchK8s "k8s" none = .ok (some { apiVersion := DEFAULT_API_VERSION, exclude := none }) ∧
      matchK8s "k8s@x" none ≠ .ok none ∧
      (jsSplit '@' "k8s@1.2.3").get? 1
        = some (({ apiVersion := "1.2.3", exclude := none } : ImportOptions)).apiVersion :=
  ⟨c10_default_only_without_at.1 none, c10_default_only_without_at.2.1 none,
    c10_default_only_without_at.2.2.1 "k8s@x" none (by decide),
    c10_default_only_without_at.2.2.2 "k8s@1.2.3" none
      { apiVersion := "1.2.3", exclude := none } (by decide) (by decide)⟩

/-- Concrete instantiation of C1 at `widgetDef`, whose annotation lists
`widgetGvk` first and which declares `metadata`. -/
theorem c1_witness :
    tryGetObjectName widgetDef = some widgetGvk ↔
      ((widgetDef.properties.getD []).contains "metadata" = true ∧
        ∃ rest, widgetDef.xKubernetesGroupVersionKind = some (widgetGvk :: rest)) :=
  c1_tryGetObjectName_iff widgetDef widgetGvk

/-- Concrete instantiation of the amended C5 at `aWidgetDescriptor`:
`KubeWidget` differs from `KubeWidgetProps`. -/
theorem c5_witness :
    getConstructTypeName aWidgetDescriptor ≠ getPropsTypeName aWidgetDescriptor :=
  c5_amended_wrapper_props_distinct aWidgetDescriptor
